import Mathlib

/-!
Verification of the registry engine of `src/registry/registry.py`.

The Python module keeps two in-memory dictionaries:
  `registry`        : maps an `agent_id` to its `agent_url`, except for the
                      reserved key `"agent_status"`, which maps to a second
                      dictionary of per-agent status objects;
  `client_registry` : maps a `client_name` to its `api_url`, except for the
                      reserved key `"agent_map"`, which maps a `client_name`
                      to the `agent_id` it aliases.
We embed each dictionary as an association list whose values live in a sum
type mirroring the union of value shapes the Python code can store.  Each
route handler becomes a Lean function; an uncaught Python exception
(KeyError / TypeError / AttributeError) is modelled as an explicit `fault`
result carrying the state as mutated up to the raise point.  Timestamps
(`datetime.now().isoformat()`) are passed in as an explicit `now` argument.
MongoDB collections are modelled as association lists of documents, and
`update_one(..., upsert=True)` with `$set` as a field-merging upsert.
-/

namespace NandaRegistry

/-- Python `d.get(k)` on a string-keyed dict, embedded as the first match in
an association list. -/
def dictGet {α : Type} : List (String × α) → String → Option α
  | [], _ => none
  | (k1, v) :: rest, k => if k1 == k then some v else dictGet rest k

/-- Python `k in d`. -/
def dictMem {α : Type} (d : List (String × α)) (k : String) : Bool :=
  (dictGet d k).isSome

/-- Python `d[k] = v`: replace the value at an existing key in place,
otherwise append the new binding at the end (dict insertion order). -/
def dictSet {α : Type} : List (String × α) → String → α → List (String × α)
  | [], k, v => [(k, v)]
  | (k1, v1) :: rest, k, v =>
    if k1 == k then (k1, v) :: rest else (k1, v1) :: dictSet rest k v

/-- Python `d.pop(k, None)`: remove the binding for `k` if present. -/
def dictPop {α : Type} (d : List (String × α)) (k : String) : List (String × α) :=
  d.filter (fun p => p.1 != k)

/-- A per-agent status object: the dictionary stored under
`registry["agent_status"][agent_id]`.  Every field is optional because the
Python code reads each key with `.get` and only some writers set some keys
(`register` never writes `capabilities`/`tags`).  `assigned_to` and
`api_url` are doubly optional: the key may be absent, or present with value
`None`. -/
structure StatusObj where
  alive : Option Bool := none
  assigned_to : Option (Option String) := none
  api_url : Option (Option String) := none
  description : Option String := none
  last_update : Option String := none
  capabilities : Option (List String) := none
  tags : Option (List String) := none
deriving Repr, DecidableEq

/-- A value of the `registry` dict: either an `agent_url` string (ordinary
agent key) or the status sub-map (the reserved `"agent_status"` key). -/
inductive RegVal where
  | url (u : String)
  | statusMap (m : List (String × StatusObj))
deriving Repr, DecidableEq

/-- A value of the `client_registry` dict: either an `api_url` string
(ordinary client key) or the alias map (the reserved `"agent_map"` key). -/
inductive CliVal where
  | api (u : String)
  | agentMap (m : List (String × String))
deriving Repr, DecidableEq

/-- The directory cache: the two module-level dictionaries. -/
structure State where
  registry : List (String × RegVal)
  client_registry : List (String × CliVal)
deriving Repr, DecidableEq

/-- A JSON value as produced by the handlers' `jsonify` payloads. -/
inductive J where
  | s (v : String)
  | b (v : Bool)
  | jnull
  | arr (vs : List String)
  | sub (m : List (String × StatusObj))
  | cmap (m : List (String × String))
deriving Repr, DecidableEq

/-- A JSON object body, in field order. -/
abbrev Payload := List (String × J)

/-- The outcome of a route handler: a 200 body, a 404, a 400, or an uncaught
Python exception (`fault`).  `okAgent` is the 200 body of `update_agent_status`,
whose `agent` field nests a full agent payload.  Error-body texts are not
modelled. -/
inductive Resp where
  | ok (body : Payload)
  | okAgent (body : Payload) (agent : Payload)
  | notFound
  | badRequest
  | fault
deriving Repr, DecidableEq

/-- Serialize an optional string (JSON `null` when absent). -/
def jOptStr : Option String → J
  | some s => J.s s
  | none => J.jnull

/-- Serialize a raw `registry` value. -/
def regvalJ : RegVal → J
  | .url u => J.s u
  | .statusMap m => J.sub m

/-- Serialize a raw `client_registry` value. -/
def clivalJ : CliVal → J
  | .api u => J.s u
  | .agentMap m => J.cmap m

/-- The status sub-map of a state, `{}` when the `"agent_status"` key is
missing or does not hold a map. -/
def statusMapOf (st : State) : List (String × StatusObj) :=
  match dictGet st.registry "agent_status" with
  | some (.statusMap m) => m
  | _ => []

/-- `registry.get("agent_status", \x7b\x7d).get(agent_id, \x7b\x7d)` on a
well-formed state. -/
def statusAt (st : State) (agent_id : String) : StatusObj :=
  (dictGet (statusMapOf st) agent_id).getD {}

/-- The alias map held inside a raw `client_registry` dictionary, `{}` when
the `"agent_map"` key is missing or does not hold a map. -/
def amapEntries (cr : List (String × CliVal)) : List (String × String) :=
  match dictGet cr "agent_map" with
  | some (.agentMap m) => m
  | _ => []

/-- The alias map of a state. -/
def amapOf (st : State) : List (String × String) :=
  amapEntries st.client_registry

/-- Does this `registry` value at `"agent_status"` hold the status sub-map? -/
def regStatusOk : Option RegVal → Bool
  | some (.statusMap _) => true
  | _ => false

/-- Does this `client_registry` value at `"agent_map"` hold the alias map? -/
def cliMapOk : Option CliVal → Bool
  | some (.agentMap _) => true
  | _ => false

/-- A state whose two reserved keys hold maps of the intended shape, as in
every state reachable without faulting from the initial
`registry = \x7b"agent_status": \x7b\x7d\x7d`,
`client_registry = \x7b"agent_map": \x7b\x7d\x7d`. -/
def WF (st : State) : Prop :=
  regStatusOk (dictGet st.registry "agent_status") = true ∧
  cliMapOk (dictGet st.client_registry "agent_map") = true

instance (st : State) : Decidable (WF st) := by
  unfold WF; infer_instance

/-- `_build_agent_payload` (registry.py lines 146-159): the nine-field view
of one agent.  `none` models the `AttributeError` raised by
`registry.get("agent_status").get` when the reserved key holds a string. -/
def build_agent_payload (st : State) (agent_id : String) : Option Payload :=
  match dictGet st.registry "agent_status" with
  | some (.url _) => none
  | v =>
    let m : List (String × StatusObj) :=
      match v with
      | some (.statusMap m) => m
      | _ => []
    let o := (dictGet m agent_id).getD {}
    let aurlJ : J :=
      match dictGet st.registry agent_id with
      | none => J.jnull
      | some rv => regvalJ rv
    some [("agent_id", J.s agent_id),
          ("agent_url", aurlJ),
          ("api_url", jOptStr o.api_url.join),
          ("alive", J.b (o.alive.getD false)),
          ("assigned_to", jOptStr o.assigned_to.join),
          ("last_update", jOptStr o.last_update),
          ("capabilities", J.arr (o.capabilities.getD [])),
          ("tags", J.arr (o.tags.getD [])),
          ("description", J.s (o.description.getD ""))]

/-- `lookup` (registry.py lines 284-311): resolve a name first as an
`agent_id`, then as a `client_name` through the alias map.  Unannotated
dictionary subscripts (`registry["agent_status"]`, `client_registry["agent_map"][id]`,
`registry[agent_id]`) raise on a missing key; such raises are `fault`. -/
def lookup (st : State) (id : String) : Resp :=
  if dictMem st.registry id && id != "agent_status" then
    match dictGet st.registry id, dictGet st.registry "agent_status" with
    | some v, some (.statusMap m) =>
      let o := (dictGet m id).getD {}
      Resp.ok [("agent_id", J.s id),
               ("agent_url", regvalJ v),
               ("api_url", jOptStr o.api_url.join),
               ("description", J.s (o.description.getD ""))]
    | _, _ => Resp.fault
  else if dictMem st.client_registry id then
    match dictGet st.client_registry "agent_map" with
    | some (.agentMap am) =>
      match dictGet am id with
      | some aid =>
        match dictGet st.registry aid with
        | some v =>
          match dictGet st.client_registry id with
          | some capi =>
            match dictGet st.registry "agent_status" with
            | some (.statusMap m) =>
              let o := (dictGet m aid).getD {}
              Resp.ok [("agent_id", J.s aid),
                       ("agent_url", regvalJ v),
                       ("api_url", clivalJ capi),
                       ("description", J.s (o.description.getD ""))]
            | _ => Resp.fault
          | none => Resp.fault
        | none => Resp.fault
      | none => Resp.fault
    | _ => Resp.fault
  else Resp.notFound

/-- `get_agent` (registry.py lines 195-199). -/
def get_agent (st : State) (agent_id : String) : Resp :=
  if !(dictMem st.registry agent_id) || agent_id == "agent_status" then
    Resp.notFound
  else
    match build_agent_payload st agent_id with
    | some p => Resp.ok p
    | none => Resp.fault

/-- Does `needle` occur at the start of `hay`? -/
def charsPrefix : List Char → List Char → Bool
  | [], _ => true
  | _ :: _, [] => false
  | c :: cs, h :: hs => c == h && charsPrefix cs hs

/-- Does `needle` occur anywhere in `hay`?  (Python `needle in hay` on
strings, character-list form.) -/
def charsSubstr (needle : List Char) : List Char → Bool
  | [] => charsPrefix needle []
  | h :: hs => charsPrefix needle (h :: hs) || charsSubstr needle hs

/-- Python `needle in hay` for strings. -/
def strIn (needle hay : String) : Bool :=
  charsSubstr needle.data hay.data

/-- ASCII lower-casing of one character (Python `str.lower`, restricted to
the ASCII range the registry's ids use). -/
def charLower (c : Char) : Char :=
  if 65 ≤ c.toNat && c.toNat ≤ 90 then Char.ofNat (c.toNat + 32) else c

/-- Python `s.lower()` (ASCII). -/
def pyLower (s : String) : String :=
  String.mk (s.data.map charLower)

/-- An ASCII whitespace character (Python `str.strip` default set). -/
def isPySpace (c : Char) : Bool :=
  c == ' ' || c == '\t' || c == '\n' || c == '\r' || c == '\x0b' || c == '\x0c'

/-- Python `s.strip()`. -/
def pyStrip (s : String) : String :=
  String.mk (((s.data.dropWhile isPySpace).reverse.dropWhile isPySpace).reverse)

/-- Splitting at commas, accumulating the current fragment. -/
def splitCommaAux : List Char → List Char → List String
  | [], acc => [String.mk acc.reverse]
  | c :: cs, acc =>
    if c == ',' then String.mk acc.reverse :: splitCommaAux cs []
    else splitCommaAux cs (c :: acc)

/-- Python `s.split(",")`. -/
def splitComma (s : String) : List String :=
  splitCommaAux s.data []

/-- Parse a comma-separated filter argument: Python
`[c.strip() for c in f.split(",")] if f else []` on an optional query
parameter. -/
def parseFilter : Option String → List String
  | none => []
  | some s => if s == "" then [] else (splitComma s).map pyStrip

/-- Read the string-array field `k` of a payload (Python
`payload.get(k, []) or []`). -/
def jGetArr (p : Payload) (k : String) : List String :=
  match dictGet p k with
  | some (J.arr vs) => vs
  | _ => []

/-- The agent-iteration loop of `search_agents` (registry.py lines 171-191),
over the remaining items of `registry`.  `none` models a fault inside
`_build_agent_payload`. -/
def searchLoop (st : State) (query : String) (caps tags : List String) :
    List (String × RegVal) → Option (List Payload)
  | [] => some []
  | (agent_id, _) :: rest =>
    if agent_id == "agent_status" then
      searchLoop st query caps tags rest
    else if query != "" && !(strIn query (pyLower agent_id)) then
      searchLoop st query caps tags rest
    else
      match build_agent_payload st agent_id with
      | none => none
      | some payload =>
        if !caps.isEmpty && !(caps.any (fun c => (jGetArr payload "capabilities").contains c)) then
          searchLoop st query caps tags rest
        else if !tags.isEmpty && !(tags.any (fun t => (jGetArr payload "tags").contains t)) then
          searchLoop st query caps tags rest
        else
          (searchLoop st query caps tags rest).map (payload :: ·)

/-- `search_agents` (registry.py lines 162-192). -/
def search_agents (st : State) (q capabilities_filter tags_filter : Option String) :
    Option (List Payload) :=
  let query := pyLower (pyStrip (q.getD ""))
  searchLoop st query (parseFilter capabilities_filter) (parseFilter tags_filter)
    st.registry

/-- A document of the Mongo `agents` collection, keyed externally by
`agent_id`. -/
structure AgentDoc where
  agent_url : RegVal
  status : StatusObj
deriving Repr, DecidableEq

/-- A document of the Mongo `client_registry` collection, keyed externally
by `client_name`. -/
structure ClientDoc where
  api_url : CliVal
  agent_id : Option String
deriving Repr, DecidableEq

/-- The Mongo `agents` collection. -/
abbrev AStore := List (String × AgentDoc)

/-- The Mongo `client_registry` collection. -/
abbrev CStore := List (String × ClientDoc)

/-- `$set` merge of a status object into a stored one: keys present in the
update overwrite, absent keys keep their stored value. -/
def setMerge (old upd : StatusObj) : StatusObj :=
  { alive := upd.alive.orElse (fun _ => old.alive),
    assigned_to := upd.assigned_to.orElse (fun _ => old.assigned_to),
    api_url := upd.api_url.orElse (fun _ => old.api_url),
    description := upd.description.orElse (fun _ => old.description),
    last_update := upd.last_update.orElse (fun _ => old.last_update),
    capabilities := upd.capabilities.orElse (fun _ => old.capabilities),
    tags := upd.tags.orElse (fun _ => old.tags) }

/-- `update_one(\x7b"agent_id": aid\x7d, \x7b"$set": doc\x7d, upsert=True)`
on the agents collection, where `doc` spreads the present status keys. -/
def upsertAgent (store : AStore) (aid : String) (aurl : RegVal) (status : StatusObj) :
    AStore :=
  match dictGet store aid with
  | none => store ++ [(aid, ⟨aurl, status⟩)]
  | some old => dictSet store aid ⟨aurl, setMerge old.status status⟩

/-- Upsert on the client collection; `$set` always carries both fields, so
it is a plain overwrite. -/
def upsertClient (store : CStore) (cname : String) (doc : ClientDoc) : CStore :=
  match dictGet store cname with
  | none => store ++ [(cname, doc)]
  | some _ => dictSet store cname doc

/-- The item loop of `save_registry` (registry.py lines 103-116): upsert
every in-memory agent record.  A raise inside the loop is caught by the
enclosing `except`, keeping the upserts already made and abandoning the
rest. -/
def saveRegLoop (regAll : List (String × RegVal)) :
    List (String × RegVal) → AStore → AStore
  | [], store => store
  | (aid, aurl) :: rest, store =>
    if aid == "agent_status" then saveRegLoop regAll rest store
    else
      match dictGet regAll "agent_status" with
      | some (.url _) => store
      | v =>
        let status : StatusObj :=
          match v with
          | some (.statusMap m) => (dictGet m aid).getD {}
          | _ => {}
        saveRegLoop regAll rest (upsertAgent store aid aurl status)

/-- `save_registry` (registry.py lines 99-118); the guard of line 100 is the
`useMongo` flag (store available and not in test mode). -/
def save_registry (useMongo : Bool) (st : State) (store : AStore) : AStore :=
  if useMongo then saveRegLoop st.registry st.registry store else store

/-- The item loop of `save_client_registry` (registry.py lines 86-94). -/
def saveCliLoop (crAll : List (String × CliVal)) :
    List (String × CliVal) → CStore → CStore
  | [], store => store
  | (cname, capi) :: rest, store =>
    if cname == "agent_map" then saveCliLoop crAll rest store
    else
      match dictGet crAll "agent_map" with
      | some (.api _) => store
      | v =>
        let aid : Option String :=
          match v with
          | some (.agentMap m) => dictGet m cname
          | _ => none
        saveCliLoop crAll rest (upsertClient store cname ⟨capi, aid⟩)

/-- `save_client_registry` (registry.py lines 82-96). -/
def save_client_registry (useMongo : Bool) (st : State) (store : CStore) : CStore :=
  if useMongo then saveCliLoop st.client_registry st.client_registry store else store

/-- The cascade loop of `delete_agent` (registry.py lines 216-218): pop each
collected `client_name` from `client_registry` and from its `agent_map`.
`.error` carries the partially mutated dict when
`client_registry.get("agent_map", \x7b\x7d)` yields a string and `.pop`
raises. -/
def cascadeRemove : List String → List (String × CliVal) →
    Except (List (String × CliVal)) (List (String × CliVal))
  | [], cr => .ok cr
  | name :: rest, cr =>
    let cr1 := dictPop cr name
    match dictGet cr1 "agent_map" with
    | some (.agentMap m) =>
      cascadeRemove rest (dictSet cr1 "agent_map" (.agentMap (dictPop m name)))
    | some (.api _) => .error cr1
    | none => cascadeRemove rest cr1

/-- `delete_agent` (registry.py lines 202-223): remove the agent record and
its status, cascade-remove every alias mapped to it, then persist both
dictionaries. -/
def delete_agent (useMongo : Bool) (st : State) (astore : AStore) (cstore : CStore)
    (agent_id : String) : Resp × State × AStore × CStore :=
  if !(dictMem st.registry agent_id) || agent_id == "agent_status" then
    (Resp.notFound, st, astore, cstore)
  else
    let reg1 := dictPop st.registry agent_id
    let step2 : Option (List (String × RegVal)) :=
      if dictMem reg1 "agent_status" then
        match dictGet reg1 "agent_status" with
        | some (.statusMap m) =>
          some (dictSet reg1 "agent_status" (.statusMap (dictPop m agent_id)))
        | _ => none
      else some reg1
    match step2 with
    | none => (Resp.fault, { st with registry := reg1 }, astore, cstore)
    | some reg2 =>
      match dictGet st.client_registry "agent_map" with
      | some (.api _) =>
        (Resp.fault, { registry := reg2, client_registry := st.client_registry },
         astore, cstore)
      | v =>
        let amap : List (String × String) :=
          match v with
          | some (.agentMap m) => m
          | _ => []
        let to_remove := (amap.filter (fun p => p.2 == agent_id)).map Prod.fst
        match cascadeRemove to_remove st.client_registry with
        | .error crPart =>
          (Resp.fault, { registry := reg2, client_registry := crPart }, astore, cstore)
        | .ok cr2 =>
          let st2 : State := { registry := reg2, client_registry := cr2 }
          let astore2 := save_registry useMongo st2 astore
          let cstore2 := save_client_registry useMongo st2 cstore
          (Resp.ok [("status", J.s "deleted"), ("agent_id", J.s agent_id)],
           st2, astore2, cstore2)

/-- A JSON value arriving in a PUT /status body, as far as the handler's
`isinstance` guards distinguish it: a string, a list of strings, or
anything else. -/
inductive PyArg where
  | pstr (s : String)
  | plist (vs : List String)
  | pother
deriving Repr, DecidableEq

/-- The body of `update_agent_status`: each key optionally present.
`alive`, when present, is modelled as the boolean `bool(...)` yields;
`assigned_to` may carry `null`. -/
structure UpdateReq where
  alive : Option Bool := none
  assigned_to : Option (Option String) := none
  capabilities : Option PyArg := none
  tags : Option PyArg := none
  description : Option PyArg := none
deriving Repr, DecidableEq

/-- The field-update sequence of `update_agent_status` (registry.py lines
234-246) applied to a stored status object: overwrite `alive` and
`assigned_to` when the key is present, refresh `last_update`, then apply
the `isinstance`-guarded overwrites of `capabilities`, `tags` and
`description`. -/
def mergeStatus (o0 : StatusObj) (data : UpdateReq) (now : String) : StatusObj :=
  let o1 := match data.alive with
    | some bv => { o0 with alive := some bv }
    | none => o0
  let o2 := match data.assigned_to with
    | some x => { o1 with assigned_to := some x }
    | none => o1
  let o3 := { o2 with last_update := some now }
  let o4 := match data.capabilities with
    | some (.plist vs) => { o3 with capabilities := some vs }
    | _ => o3
  let o5 := match data.tags with
    | some (.plist vs) => { o4 with tags := some vs }
    | _ => o4
  match data.description with
  | some (.pstr s) => { o5 with description := some s }
  | _ => o5

/-- `update_agent_status` (registry.py lines 226-251): partial merge of the
present request fields into the stored status object, always refreshing
`last_update`, with `isinstance` type guards on `capabilities`, `tags` and
`description`. -/
def update_agent_status (useMongo : Bool) (st : State) (astore : AStore)
    (agent_id : String) (data : UpdateReq) (now : String) : Resp × State × AStore :=
  if !(dictMem st.registry agent_id) || agent_id == "agent_status" then
    (Resp.notFound, st, astore)
  else
    match dictGet st.registry "agent_status" with
    | some (.url _) => (Resp.fault, st, astore)
    | some (.statusMap m) =>
      let o6 := mergeStatus ((dictGet m agent_id).getD {}) data now
      let reg2 := dictSet st.registry "agent_status" (.statusMap (dictSet m agent_id o6))
      let st2 : State := { st with registry := reg2 }
      let astore2 := save_registry useMongo st2 astore
      match build_agent_payload st2 agent_id with
      | some p => (Resp.okAgent [("status", J.s "updated")] p, st2, astore2)
      | none => (Resp.fault, st2, astore2)
    | none => (Resp.fault, st, astore)

/-- The body of POST /register: each key optionally present (`none` models
an absent key; `api_url` absent and `api_url: null` coincide under
`data.get`). -/
structure RegisterReq where
  agent_id : Option String := none
  agent_url : Option String := none
  api_url : Option String := none
  description : Option String := none
deriving Repr, DecidableEq

/-- The fresh status object written by `register` (registry.py lines
270-276): note that it has no `capabilities` or `tags` keys. -/
def newStatusOf (d : RegisterReq) (now : String) : StatusObj :=
  { alive := some false, assigned_to := some none,
    api_url := some d.api_url,
    description := some (d.description.getD ""),
    last_update := some now }

/-- `register` (registry.py lines 254-281): validate presence of `agent_id`
and `agent_url`, store the url, and replace the status object with a fresh
one (`alive=False`, `assigned_to=None`, request `api_url`/`description`,
fresh `last_update`; no `capabilities`/`tags` keys).  When `agent_id` is
the reserved name itself, line 265 replaces the status sub-map with the url
string, and line 270 then raises `TypeError` (`fault`). -/
def register (useMongo : Bool) (st : State) (astore : AStore)
    (data : Option RegisterReq) (now : String) : Resp × State × AStore :=
  match data with
  | none => (Resp.badRequest, st, astore)
  | some d =>
    match d.agent_id, d.agent_url with
    | some aid, some aurl =>
      let reg1 := dictSet st.registry aid (RegVal.url aurl)
      let reg2 :=
        if dictMem reg1 "agent_status" then reg1
        else dictSet reg1 "agent_status" (RegVal.statusMap [])
      match dictGet reg2 "agent_status" with
      | some (.statusMap m) =>
        let reg3 := dictSet reg2 "agent_status" (.statusMap (dictSet m aid (newStatusOf d now)))
        let st2 : State := { st with registry := reg3 }
        (Resp.ok [("status", J.s "success"),
                  ("message", J.s ("Agent " ++ aid ++ " registered"))],
         st2, save_registry useMongo st2 astore)
      | _ => (Resp.fault, { st with registry := reg2 }, astore)
    | _, _ => (Resp.badRequest, st, astore)

/-- `stats` (registry.py lines 130-143), as the triple
(total agents, alive agents, total clients); `none` models the
`AttributeError` when `registry["agent_status"]` holds a string. -/
def stats (st : State) : Option (Nat × Nat × Nat) :=
  let agents := (st.registry.map Prod.fst).filter (· != "agent_status")
  let total_clients :=
    ((st.client_registry.map Prod.fst).filter (· != "agent_map")).length
  if dictMem st.registry "agent_status" then
    match dictGet st.registry "agent_status" with
    | some (.statusMap m) =>
      some (agents.length,
            (agents.filter (fun a => ((dictGet m a).getD {}).alive.getD false)).length,
            total_clients)
    | _ => none
  else
    some (agents.length, 0, total_clients)

/-- `list_agents` (registry.py lines 314-317). -/
def list_agents (st : State) : Payload :=
  (st.registry.filter (fun p => p.1 != "agent_status")).map
    (fun p => (p.1, regvalJ p.2))

/-- `list_clients` (registry.py lines 320-323). -/
def list_clients (st : State) : Payload :=
  (st.client_registry.filter (fun p => p.1 != "agent_map")).map
    (fun p => (p.1, J.s "alive"))

/-- The nine-field agent view read off the directory cache directly (the
value `_build_agent_payload` produces on a state whose status sub-map is
intact). -/
def payloadOf (st : State) (agent_id : String) : Payload :=
  let o := statusAt st agent_id
  let aurlJ : J :=
    match dictGet st.registry agent_id with
    | none => J.jnull
    | some rv => regvalJ rv
  [("agent_id", J.s agent_id),
   ("agent_url", aurlJ),
   ("api_url", jOptStr o.api_url.join),
   ("alive", J.b (o.alive.getD false)),
   ("assigned_to", jOptStr o.assigned_to.join),
   ("last_update", jOptStr o.last_update),
   ("capabilities", J.arr (o.capabilities.getD [])),
   ("tags", J.arr (o.tags.getD [])),
   ("description", J.s (o.description.getD ""))]

/-- The search predicate as the specification states it: the conjunction of
the name condition, the capability condition and the tag condition, each
vacuously true when its filter is absent, and each filter an OR over its
comma-separated values against the agent's stored set. -/
def searchMatches (st : State) (q capabilities_filter tags_filter : Option String)
    (aid : String) : Bool :=
  let query := pyLower (pyStrip (q.getD ""))
  let caps := parseFilter capabilities_filter
  let tags := parseFilter tags_filter
  (query == "" || strIn query (pyLower aid)) &&
  ((caps.isEmpty || caps.any (fun c => ((statusAt st aid).capabilities.getD []).contains c)) &&
   (tags.isEmpty || tags.any (fun t => ((statusAt st aid).tags.getD []).contains t)))

/-- Declarative search result, from the specification's words: exactly the
agents (in directory order) satisfying the three-way conjunction. -/
def searchSpec (st : State) (q capabilities_filter tags_filter : Option String) :
    List Payload :=
  ((st.registry.map Prod.fst).filter (fun aid =>
      aid != "agent_status" && searchMatches st q capabilities_filter tags_filter aid)).map
    (payloadOf st)

/-- Safety condition for the alias branch of `lookup`: whenever the name is
a key of `client_registry`, the alias map resolves it to a present agent. -/
def lookupSafe (st : State) (name : String) : Prop :=
  dictMem st.client_registry name = true →
    ∃ aid, dictGet (amapOf st) name = some aid ∧ dictMem st.registry aid = true

/-- An empty, well-formed directory cache (module initialization,
registry.py lines 48-49). -/
def exSt0 : State :=
  { registry := [("agent_status", .statusMap [])],
    client_registry := [("agent_map", .agentMap [])] }

/-- Agent `A1` with `agent_url="U"`, stored `api_url="W"`,
`description="d"`, plus alias `C1 -> A1` with `api_url="V"`. -/
def exSt : State :=
  { registry := [("agent_status",
                  .statusMap [("A1", { api_url := some (some "W"),
                                       description := some "d" })]),
                 ("A1", .url "U")],
    client_registry := [("agent_map", .agentMap [("C1", "A1")]),
                        ("C1", .api "V")] }

/-- A dangling alias: `C1 -> A1` registered while no agent `A1` exists. -/
def exStDangling : State :=
  { registry := [("agent_status", .statusMap [])],
    client_registry := [("agent_map", .agentMap [("C1", "A1")]),
                        ("C1", .api "V")] }

/-- Agent `A1` carrying capabilities and tags, about to be re-registered. -/
def exStCaps : State :=
  { registry := [("agent_status",
                  .statusMap [("A1", { alive := some false,
                                       capabilities := some ["x"],
                                       tags := some ["y"],
                                       description := some "old" })]),
                 ("A1", .url "U")],
    client_registry := [("agent_map", .agentMap [])] }

/-- Re-registration of `A1` on `exStCaps`. -/
def exReReg : Resp × State × AStore :=
  register true exStCaps []
    (some { agent_id := some "A1", agent_url := some "U2" }) "t2"

/-- Two agents and two aliases, with both records also persisted in the
durable store; used to exercise `delete_agent`. -/
def exStDel : State :=
  { registry := [("agent_status", .statusMap [("A1", {}), ("A2", {})]),
                 ("A1", .url "U"), ("A2", .url "U2")],
    client_registry := [("agent_map", .agentMap [("C1", "A1"), ("C2", "A2")]),
                        ("C1", .api "V"), ("C2", .api "V2")] }

/-- The durable agents collection matching `exStDel`. -/
def exAStore : AStore :=
  [("A1", { agent_url := .url "U", status := {} }),
   ("A2", { agent_url := .url "U2", status := {} })]

/-- The durable clients collection matching `exStDel`. -/
def exCStore : CStore :=
  [("C1", { api_url := .api "V", agent_id := some "A1" }),
   ("C2", { api_url := .api "V2", agent_id := some "A2" })]

/-- Deletion of `A1` on `exStDel` with the store available. -/
def exDel : Resp × State × AStore × CStore :=
  delete_agent true exStDel exAStore exCStore "A1"

/-- Agent `A` with capability `x` and no tags, agent `B` with capability
`y` and tag `z` (the specification's filter example). -/
def exStSearch : State :=
  { registry := [("agent_status",
                  .statusMap [("A", { capabilities := some ["x"], tags := some [] }),
                              ("B", { capabilities := some ["y"], tags := some ["z"] })]),
                 ("A", .url "ua"), ("B", .url "ub")],
    client_registry := [("agent_map", .agentMap [])] }

/-- Registration of the reserved name on the empty cache. -/
def exRegReserved : Resp × State × AStore :=
  register true exSt0 []
    (some { agent_id := some "agent_status", agent_url := some "u1" }) "t1"

/-- Registration with a present but empty `agent_id` on the empty cache. -/
def exRegEmpty : Resp × State × AStore :=
  register true exSt0 []
    (some { agent_id := some "", agent_url := some "u1" }) "t1"

theorem dictGet_set_self {α : Type} (d : List (String × α)) (k : String) (v : α) :
    dictGet (dictSet d k v) k = some v := by
  induction d with
  | nil => simp [dictSet, dictGet]
  | cons p rest ih =>
    obtain ⟨k1, v1⟩ := p
    by_cases h : k1 = k
    · simp [dictSet, dictGet, h]
    · simp [dictSet, dictGet, h, ih]

theorem dictGet_set_ne {α : Type} (d : List (String × α)) (k k2 : String) (v : α)
    (h : k2 ≠ k) : dictGet (dictSet d k v) k2 = dictGet d k2 := by
  induction d with
  | nil =>
    simp only [dictSet, dictGet, beq_iff_eq]
    rw [if_neg (fun hh => h hh.symm)]
  | cons p rest ih =>
    obtain ⟨k1, v1⟩ := p
    have e1 : ¬ k = k2 := fun hh => h hh.symm
    by_cases h1 : k1 = k
    · simp [dictSet, dictGet, h1, e1]
    · by_cases h2 : k1 = k2
      · simp [dictSet, dictGet, h1, h2, h]
      · simp [dictSet, dictGet, h1, h2, ih]

theorem dictGet_pop_self {α : Type} (d : List (String × α)) (k : String) :
    dictGet (dictPop d k) k = none := by
  induction d with
  | nil => simp [dictPop, dictGet]
  | cons p rest ih =>
    obtain ⟨k1, v1⟩ := p
    by_cases h : k1 = k
    · simpa [dictPop, h] using ih
    · simpa [dictPop, dictGet, h] using ih

theorem dictGet_pop_ne {α : Type} (d : List (String × α)) (k k2 : String)
    (h : k2 ≠ k) : dictGet (dictPop d k) k2 = dictGet d k2 := by
  induction d with
  | nil => simp [dictPop, dictGet]
  | cons p rest ih =>
    obtain ⟨k1, v1⟩ := p
    simp only [dictPop, List.filter_cons] at *
    have e1 : ¬ k = k2 := fun hh => h hh.symm
    by_cases h1 : k1 = k
    · simp [h1, dictGet, e1, ih]
    · by_cases h2 : k1 = k2
      · simp [h1, h2, dictGet, h]
      · simp [h1, h2, dictGet, ih]

theorem dictMem_iff {α : Type} (d : List (String × α)) (k : String) :
    dictMem d k = true ↔ ∃ v, dictGet d k = some v := by
  unfold dictMem
  cases dictGet d k <;> simp

theorem regStatusOk_elim {v : Option RegVal} (h : regStatusOk v = true) :
    ∃ m, v = some (.statusMap m) := by
  match v with
  | none => simp [regStatusOk] at h
  | some (.url _) => simp [regStatusOk] at h
  | some (.statusMap m) => exact ⟨m, rfl⟩

theorem cliMapOk_elim {v : Option CliVal} (h : cliMapOk v = true) :
    ∃ m, v = some (.agentMap m) := by
  match v with
  | none => simp [cliMapOk] at h
  | some (.api _) => simp [cliMapOk] at h
  | some (.agentMap m) => exact ⟨m, rfl⟩

theorem build_agent_payload_eq (st : State) (aid : String)
    (m : List (String × StatusObj))
    (h : dictGet st.registry "agent_status" = some (.statusMap m)) :
    build_agent_payload st aid = some (payloadOf st aid) := by
  unfold build_agent_payload payloadOf statusAt statusMapOf
  rw [h]

theorem jGetArr_payloadOf_caps (st : State) (aid : String) :
    jGetArr (payloadOf st aid) "capabilities" =
      (statusAt st aid).capabilities.getD [] := rfl

theorem jGetArr_payloadOf_tags (st : State) (aid : String) :
    jGetArr (payloadOf st aid) "tags" = (statusAt st aid).tags.getD [] := rfl

theorem searchLoop_eq (st : State) (m : List (String × StatusObj))
    (h : dictGet st.registry "agent_status" = some (.statusMap m))
    (query : String) (caps tags : List String) (items : List (String × RegVal)) :
    searchLoop st query caps tags items =
      some (((items.map Prod.fst).filter (fun aid =>
        aid != "agent_status" &&
        ((query == "" || strIn query (pyLower aid)) &&
         ((caps.isEmpty ||
            caps.any (fun c => ((statusAt st aid).capabilities.getD []).contains c)) &&
          (tags.isEmpty ||
            tags.any (fun t => ((statusAt st aid).tags.getD []).contains t)))))).map
        (payloadOf st)) := by
  induction items with
  | nil => rfl
  | cons p rest ih =>
    obtain ⟨aid, v⟩ := p
    have hb := build_agent_payload_eq st aid m h
    rw [List.map_cons, List.filter_cons]
    by_cases hA : aid = "agent_status"
    · rw [searchLoop, if_pos (by simp [hA] : (aid == "agent_status") = true),
        if_neg (by simp [hA, bne])]
      exact ih
    · rw [searchLoop, if_neg (by simp [hA] : ¬ (aid == "agent_status") = true)]
      simp only [hb, jGetArr_payloadOf_caps, jGetArr_payloadOf_tags]
      by_cases hq : (query != "" && !(strIn query (pyLower aid))) = true
      · obtain ⟨hq1, hq2⟩ := by simpa [bne] using hq
        rw [if_pos hq, if_neg (by simp [hq1, hq2])]
        exact ih
      · have hq0 : (query != "" && !(strIn query (pyLower aid))) = false := by
          revert hq; cases query != "" && !(strIn query (pyLower aid)) <;> simp
        have hq2 : (query == "" || strIn query (pyLower aid)) = true := by
          simp only [bne] at hq0
          revert hq0
          cases query == "" <;> cases strIn query (pyLower aid) <;> simp
        rw [if_neg hq]
        by_cases hc : (!caps.isEmpty &&
            !(caps.any fun c => ((statusAt st aid).capabilities.getD []).contains c)) = true
        · have hcE : caps.isEmpty = false := by
            revert hc; cases caps.isEmpty <;> simp
          have hcA : (caps.any fun c =>
              ((statusAt st aid).capabilities.getD []).contains c) = false := by
            revert hc
            cases caps.any fun c => ((statusAt st aid).capabilities.getD []).contains c <;> simp
          rw [if_pos hc, if_neg (by
            simp only [hcE, hcA, Bool.false_or, Bool.false_and, Bool.and_false]
            exact Bool.false_ne_true)]
          exact ih
        · have hc0 : (!caps.isEmpty &&
              !(caps.any fun c => ((statusAt st aid).capabilities.getD []).contains c)) = false := by
            revert hc
            cases !caps.isEmpty &&
              !(caps.any fun c => ((statusAt st aid).capabilities.getD []).contains c) <;> simp
          have hc2 : (caps.isEmpty ||
              caps.any fun c => ((statusAt st aid).capabilities.getD []).contains c) = true := by
            revert hc0
            cases caps.isEmpty <;>
              cases caps.any fun c => ((statusAt st aid).capabilities.getD []).contains c <;> simp
          rw [if_neg hc]
          by_cases ht : (!tags.isEmpty &&
              !(tags.any fun t => ((statusAt st aid).tags.getD []).contains t)) = true
          · have htE : tags.isEmpty = false := by
              revert ht; cases tags.isEmpty <;> simp
            have htA : (tags.any fun t =>
                ((statusAt st aid).tags.getD []).contains t) = false := by
              revert ht
              cases tags.any fun t => ((statusAt st aid).tags.getD []).contains t <;> simp
            rw [if_pos ht, if_neg (by
              simp only [htE, htA, Bool.false_or, Bool.and_false]
              exact Bool.false_ne_true)]
            exact ih
          · have ht0 : (!tags.isEmpty &&
                !(tags.any fun t => ((statusAt st aid).tags.getD []).contains t)) = false := by
              revert ht
              cases !tags.isEmpty &&
                !(tags.any fun t => ((statusAt st aid).tags.getD []).contains t) <;> simp
            have ht2 : (tags.isEmpty ||
                tags.any fun t => ((statusAt st aid).tags.getD []).contains t) = true := by
              revert ht0
              cases tags.isEmpty <;>
                cases tags.any fun t => ((statusAt st aid).tags.getD []).contains t <;> simp
            rw [if_neg ht, if_pos (by
              have hAb : (aid != "agent_status") = true := by simp [bne, hA]
              simp only [hAb, hq2, hc2, ht2, Bool.true_and]), ih]
            rfl

theorem cascadeRemove_no_fault (names : List String) :
    ∀ cr : List (String × CliVal),
      (dictGet cr "agent_map" = none ∨ ∃ m, dictGet cr "agent_map" = some (.agentMap m)) →
      ∃ cr2, cascadeRemove names cr = .ok cr2 := by
  induction names with
  | nil => intro cr _; exact ⟨cr, rfl⟩
  | cons name rest ih =>
    intro cr hinv
    by_cases hn : name = "agent_map"
    · have hpop : dictGet (dictPop cr name) "agent_map" = none := by
        rw [← hn]; exact dictGet_pop_self cr name
      obtain ⟨cr2, h2⟩ := ih (dictPop cr name) (Or.inl hpop)
      exact ⟨cr2, by rw [cascadeRemove, hpop]; exact h2⟩
    · have hpop : dictGet (dictPop cr name) "agent_map" = dictGet cr "agent_map" :=
        dictGet_pop_ne cr name "agent_map" (fun hh => hn hh.symm)
      rcases hinv with hno | ⟨m, hm⟩
      · obtain ⟨cr2, h2⟩ := ih (dictPop cr name) (Or.inl (hpop.trans hno))
        exact ⟨cr2, by rw [cascadeRemove, hpop.trans hno]; exact h2⟩
      · have hset : dictGet (dictSet (dictPop cr name) "agent_map"
            (.agentMap (dictPop m name))) "agent_map" =
            some (.agentMap (dictPop m name)) :=
          dictGet_set_self (dictPop cr name) "agent_map" (.agentMap (dictPop m name))
        obtain ⟨cr2, h2⟩ := ih _ (Or.inr ⟨dictPop m name, hset⟩)
        exact ⟨cr2, by rw [cascadeRemove, hpop.trans hm]; exact h2⟩

theorem cascadeRemove_clears (target : String) (names : List String) :
    ∀ cr cr2 : List (String × CliVal),
      cascadeRemove names cr = .ok cr2 →
      (∀ c a, (c, a) ∈ amapEntries cr → a = target → c ∈ names) →
      ∀ c a, (c, a) ∈ amapEntries cr2 → a ≠ target := by
  induction names with
  | nil =>
    intro cr cr2 hok hcov c a hmem heq
    cases hok
    exact List.not_mem_nil c (hcov c a hmem heq)
  | cons name rest ih =>
    intro cr cr2 hok hcov c a hmem heq
    rw [cascadeRemove] at hok
    by_cases hn : name = "agent_map"
    · have hpop : dictGet (dictPop cr name) "agent_map" = none := by
        rw [← hn]; exact dictGet_pop_self cr name
      rw [hpop] at hok
      refine ih (dictPop cr name) cr2 hok ?_ c a hmem heq
      intro c1 a1 hmem1 heq1
      rw [amapEntries, hpop] at hmem1
      exact absurd hmem1 (List.not_mem_nil (c1, a1))
    · have hpop : dictGet (dictPop cr name) "agent_map" = dictGet cr "agent_map" :=
        dictGet_pop_ne cr name "agent_map" (fun hh => hn hh.symm)
      cases hcr : dictGet cr "agent_map" with
      | none =>
        rw [hpop.trans hcr] at hok
        refine ih (dictPop cr name) cr2 hok ?_ c a hmem heq
        intro c1 a1 hmem1 heq1
        rw [amapEntries, hpop.trans hcr] at hmem1
        exact absurd hmem1 (List.not_mem_nil (c1, a1))
      | some cv =>
        cases cv with
        | api u =>
          rw [hpop.trans hcr] at hok
          exact absurd hok (by simp)
        | agentMap mm =>
          rw [hpop.trans hcr] at hok
          refine ih _ cr2 hok ?_ c a hmem heq
          intro c1 a1 hmem1 heq1
          have hset : amapEntries (dictSet (dictPop cr name) "agent_map"
              (.agentMap (dictPop mm name))) = dictPop mm name := by
            rw [amapEntries, dictGet_set_self]
          rw [hset] at hmem1
          have hmm : (c1, a1) ∈ mm ∧ ((c1, a1).1 != name) = true :=
            List.mem_filter.mp hmem1
          have hcn : c1 ≠ name := by simpa [bne] using hmm.2
          have : c1 ∈ name :: rest := by
            refine hcov c1 a1 ?_ heq1
            rw [amapEntries, hcr]
            exact hmm.1
          rcases List.mem_cons.mp this with h1 | h1
          · exact absurd h1 hcn
          · exact h1

theorem register_success (um : Bool) (st : State) (astore : AStore)
    (d : RegisterReq) (aid aurl now : String) (m : List (String × StatusObj))
    (hid : d.agent_id = some aid) (hurl : d.agent_url = some aurl)
    (hne : aid ≠ "agent_status")
    (hs : dictGet st.registry "agent_status" = some (.statusMap m)) :
    register um st astore (some d) now =
      (Resp.ok [("status", J.s "success"),
                ("message", J.s ("Agent " ++ aid ++ " registered"))],
       State.mk (dictSet (dictSet st.registry aid (RegVal.url aurl))
           "agent_status" (RegVal.statusMap (dictSet m aid (newStatusOf d now))))
         st.client_registry,
       save_registry um
         (State.mk (dictSet (dictSet st.registry aid (RegVal.url aurl))
             "agent_status" (RegVal.statusMap (dictSet m aid (newStatusOf d now))))
           st.client_registry)
         astore) := by
  have h1 : dictGet (dictSet st.registry aid (RegVal.url aurl)) "agent_status" =
      some (.statusMap m) := by
    rw [dictGet_set_ne st.registry aid "agent_status" (RegVal.url aurl)
      (fun hh => hne hh.symm)]
    exact hs
  have h2 : dictMem (dictSet st.registry aid (RegVal.url aurl)) "agent_status" = true := by
    rw [dictMem, h1]; rfl
  simp only [register, hid, hurl, h2, if_true, h1]

theorem update_success (um : Bool) (st : State) (astore : AStore)
    (aid : String) (d : UpdateReq) (now : String) (m : List (String × StatusObj))
    (hs : dictGet st.registry "agent_status" = some (.statusMap m))
    (hmem : dictMem st.registry aid = true) (hne : aid ≠ "agent_status") :
    (update_agent_status um st astore aid d now).2.1 =
      State.mk (dictSet st.registry "agent_status"
          (RegVal.statusMap (dictSet m aid
            (mergeStatus ((dictGet m aid).getD {}) d now))))
        st.client_registry ∧
    (update_agent_status um st astore aid d now).1 ≠ Resp.fault ∧
    (update_agent_status um st astore aid d now).1 ≠ Resp.notFound := by
  have hg : (!(dictMem st.registry aid) || aid == "agent_status") = false := by
    simp [hmem, hne]
  have hb := build_agent_payload_eq
    (State.mk (dictSet st.registry "agent_status"
        (RegVal.statusMap (dictSet m aid (mergeStatus ((dictGet m aid).getD {}) d now))))
      st.client_registry)
    aid (dictSet m aid (mergeStatus ((dictGet m aid).getD {}) d now))
    (by
      show dictGet (dictSet st.registry "agent_status" _) "agent_status" = _
      rw [dictGet_set_self])
  simp only [update_agent_status, hg, if_false, hs, hb]
  refine ⟨rfl, ?_, ?_⟩ <;> simp

theorem statusAt_set (st : State) (aid : String) (m : List (String × StatusObj))
    (o : StatusObj) :
    statusAt (State.mk (dictSet st.registry "agent_status"
        (RegVal.statusMap (dictSet m aid o))) st.client_registry) aid = o := by
  have h := dictGet_set_self st.registry "agent_status"
    (RegVal.statusMap (dictSet m aid o))
  simp only [statusAt, statusMapOf, h]
  rw [dictGet_set_self]
  rfl

theorem statusAt_set_ne (st : State) (aid k : String)
    (m : List (String × StatusObj)) (o : StatusObj)
    (hs : dictGet st.registry "agent_status" = some (.statusMap m))
    (hk : k ≠ aid) :
    statusAt (State.mk (dictSet st.registry "agent_status"
        (RegVal.statusMap (dictSet m aid o))) st.client_registry) k = statusAt st k := by
  have h := dictGet_set_self st.registry "agent_status"
    (RegVal.statusMap (dictSet m aid o))
  simp only [statusAt, statusMapOf, h, hs]
  rw [dictGet_set_ne m aid k o hk]

theorem mergeStatus_alive (o : StatusObj) (d : UpdateReq) (now : String) :
    (mergeStatus o d now).alive =
      (match d.alive with | some bv => some bv | none => o.alive) := by
  obtain ⟨al, asg, cp, tg, ds⟩ := d
  cases al <;> cases asg <;> rcases cp with _ | (_ | _ | _) <;>
    rcases tg with _ | (_ | _ | _) <;> rcases ds with _ | (_ | _ | _) <;> rfl

theorem mergeStatus_assigned (o : StatusObj) (d : UpdateReq) (now : String) :
    (mergeStatus o d now).assigned_to =
      (match d.assigned_to with | some x => some x | none => o.assigned_to) := by
  obtain ⟨al, asg, cp, tg, ds⟩ := d
  cases al <;> cases asg <;> rcases cp with _ | (_ | _ | _) <;>
    rcases tg with _ | (_ | _ | _) <;> rcases ds with _ | (_ | _ | _) <;> rfl

theorem mergeStatus_api_url (o : StatusObj) (d : UpdateReq) (now : String) :
    (mergeStatus o d now).api_url = o.api_url := by
  obtain ⟨al, asg, cp, tg, ds⟩ := d
  cases al <;> cases asg <;> rcases cp with _ | (_ | _ | _) <;>
    rcases tg with _ | (_ | _ | _) <;> rcases ds with _ | (_ | _ | _) <;> rfl

theorem mergeStatus_last_update (o : StatusObj) (d : UpdateReq) (now : String) :
    (mergeStatus o d now).last_update = some now := by
  obtain ⟨al, asg, cp, tg, ds⟩ := d
  cases al <;> cases asg <;> rcases cp with _ | (_ | _ | _) <;>
    rcases tg with _ | (_ | _ | _) <;> rcases ds with _ | (_ | _ | _) <;> rfl

theorem mergeStatus_caps (o : StatusObj) (d : UpdateReq) (now : String) :
    (mergeStatus o d now).capabilities =
      (match d.capabilities with
        | some (PyArg.plist vs) => some vs
        | _ => o.capabilities) := by
  obtain ⟨al, asg, cp, tg, ds⟩ := d
  cases al <;> cases asg <;> rcases cp with _ | (_ | _ | _) <;>
    rcases tg with _ | (_ | _ | _) <;> rcases ds with _ | (_ | _ | _) <;> rfl

theorem mergeStatus_tags (o : StatusObj) (d : UpdateReq) (now : String) :
    (mergeStatus o d now).tags =
      (match d.tags with
        | some (PyArg.plist vs) => some vs
        | _ => o.tags) := by
  obtain ⟨al, asg, cp, tg, ds⟩ := d
  cases al <;> cases asg <;> rcases cp with _ | (_ | _ | _) <;>
    rcases tg with _ | (_ | _ | _) <;> rcases ds with _ | (_ | _ | _) <;> rfl

theorem mergeStatus_desc (o : StatusObj) (d : UpdateReq) (now : String) :
    (mergeStatus o d now).description =
      (match d.description with
        | some (PyArg.pstr str) => some str
        | _ => o.description) := by
  obtain ⟨al, asg, cp, tg, ds⟩ := d
  cases al <;> cases asg <;> rcases cp with _ | (_ | _ | _) <;>
    rcases tg with _ | (_ | _ | _) <;> rcases ds with _ | (_ | _ | _) <;> rfl

/-- Claim C1, counterexample: on a cache holding the Client Alias Record
`{client_name: "C1", agent_id: "A1", api_url: "V"}` while no Agent
Record `A1` exists (a dangling alias), `lookup("C1")` does not return a
typed result: line 300 of registry.py evaluates `registry[agent_id]` and
raises an uncaught `KeyError`. -/
theorem c1_lookup_dangling_alias_faults :
    dictGet (amapOf exStDangling) "C1" = some "A1" ∧
    dictMem exStDangling.registry "A1" = false ∧
    lookup exStDangling "C1" = Resp.fault := by decide

/-- Claim C2, counterexample: `"agent_map"` is neither a present agent_id
nor a registered client_name on `exSt`, so the claim requires `NotFound`;
but `"agent_map" in client_registry` is true (it is the sentinel key), so
the code enters the alias branch and `client_registry["agent_map"]["agent_map"]`
raises an uncaught `KeyError` instead. -/
theorem c2_lookup_sentinel_faults_not_notfound :
    dictMem exSt.registry "agent_map" = false ∧
    (amapOf exSt).all (fun p => p.1 != "agent_map") = true ∧
    lookup exSt "agent_map" = Resp.fault := by decide

/-- Claim C6, counterexample: `agent_id` present but empty (`""`) is not
rejected: `register` only checks key presence (line 257), so the request
succeeds and stores a record under the empty id, contradicting "fails with
InvalidInput exactly when agent_id or agent_url is missing or empty". -/
theorem c6_empty_agent_id_accepted :
    exRegEmpty.1 = Resp.ok [("status", J.s "success"),
      ("message", J.s "Agent  registered")] ∧
    dictGet exRegEmpty.2.1.registry "" = some (RegVal.url "u1") := by decide

/-- Claim C7, counterexample: agent `A1` holds `capabilities=["x"]`,
`tags=["y"]` before re-registration; afterwards the status object has been
replaced wholesale (registry.py line 270), both keys are gone, and the full
view reports empty capabilities and tags. -/
theorem c7_reregister_drops_capabilities :
    (statusAt exStCaps "A1").capabilities = some ["x"] ∧
    (statusAt exStCaps "A1").tags = some ["y"] ∧
    exReReg.1 = Resp.ok [("status", J.s "success"),
      ("message", J.s "Agent A1 registered")] ∧
    (statusAt exReReg.2.1 "A1").capabilities = none ∧
    (statusAt exReReg.2.1 "A1").tags = none ∧
    get_agent exReReg.2.1 "A1" = Resp.ok [("agent_id", J.s "A1"),
      ("agent_url", J.s "U2"), ("api_url", J.jnull), ("alive", J.b false),
      ("assigned_to", J.jnull), ("last_update", J.s "t2"),
      ("capabilities", J.arr []), ("tags", J.arr []),
      ("description", J.s "")] := by decide

/-- Claim C8: deleting `A1` succeeds, removes the agent and its alias from
the in-memory cache, yet the durable store still contains both the deleted
agent document and the cascaded alias document afterwards: `save_registry`
and `save_client_registry` only upsert surviving records (registry.py lines
112-116 and 90-94) and never issue a delete, so the removal is not
persisted. -/
theorem c8_delete_not_persisted :
    exDel.1 = Resp.ok [("status", J.s "deleted"), ("agent_id", J.s "A1")] ∧
    dictMem exDel.2.1.registry "A1" = false ∧
    (amapOf exDel.2.1).all (fun p => p.2 != "A1") = true ∧
    dictMem exDel.2.2.1 "A1" = true ∧
    dictMem exDel.2.2.2 "C1" = true := by decide

/-- Claim C9: `register` has no guard on the reserved name, so
`register("agent_status", "u1")` first replaces the status sub-map with the
string `"u1"` (registry.py line 265) and then raises an uncaught
`TypeError` at line 270, leaving the cache corrupted: the reservation is
not enforced on the register path, although every other operation guards
it. -/
theorem c9_register_reserved_name_corrupts :
    exRegReserved.1 = Resp.fault ∧
    dictGet exRegReserved.2.1.registry "agent_status" =
      some (RegVal.url "u1") := by decide

/-- Claim C4: `search(query, capabilities_filter, tags_filter)` returns
exactly the agents satisfying the conjunction of the three predicates —
the (normalized) query as case-insensitive substring of the agent_id, the
capability set intersecting the comma-separated capability filter, and the
tag set intersecting the tag filter — with an absent filter vacuously
true.  The code's sequential continue-based loop equals the declarative
filter `searchSpec` written from the specification's words. -/
theorem c4_search_conjunction (st : State) (m : List (String × StatusObj))
    (hs : dictGet st.registry "agent_status" = some (RegVal.statusMap m))
    (q cf tf : Option String) :
    search_agents st q cf tf = some (searchSpec st q cf tf) := by
  unfold search_agents searchSpec searchMatches
  exact searchLoop_eq st m hs (pyLower (pyStrip (q.getD "")))
    (parseFilter cf) (parseFilter tf) st.registry

/-- Claim C4 witness: on `exStSearch` with `capabilities_filter="x,y"` and
`tags_filter="z"`, exactly agent `B` is returned; agent `A` matches only
the capability condition and is excluded. -/
theorem c4_search_conjunction_witness :
    search_agents exStSearch none (some "x,y") (some "z") =
      some [payloadOf exStSearch "B"] :=
  (c4_search_conjunction exStSearch
    [("A", { capabilities := some ["x"], tags := some [] }),
     ("B", { capabilities := some ["y"], tags := some ["z"] })]
    rfl none (some "x,y") (some "z")).trans (by rfl)

/-- Claim C3: whenever `delete(agent_id)` succeeds, the Agent Record is
gone from the in-memory cache (both the url entry and the status entry)
and no Client Alias Record in the cache maps to the deleted id — the
cascade removes every such alias in the same mutation. -/
theorem c3_delete_cascades (um : Bool) (st : State) (astore : AStore)
    (cstore : CStore) (agent_id : String) (body : Payload) (st2 : State)
    (as2 : AStore) (cs2 : CStore)
    (h : delete_agent um st astore cstore agent_id =
      (Resp.ok body, st2, as2, cs2)) :
    dictMem st2.registry agent_id = false ∧
    dictGet (statusMapOf st2) agent_id = none ∧
    (amapOf st2).all (fun p => p.2 != agent_id) = true := by
  unfold delete_agent at h
  by_cases hg : (!(dictMem st.registry agent_id) || agent_id == "agent_status") = true
  · rw [if_pos hg] at h
    simp at h
  · rw [if_neg hg] at h
    have hne : agent_id ≠ "agent_status" := by
      intro hh
      exact hg (by simp [hh])
    have hpop : dictGet (dictPop st.registry agent_id) "agent_status" =
        dictGet st.registry "agent_status" :=
      dictGet_pop_ne st.registry agent_id "agent_status" (fun hh => hne hh.symm)
    cases hget : dictGet (dictPop st.registry agent_id) "agent_status" with
    | none =>
      simp only [hget, dictMem, Option.isSome_none, Bool.false_eq_true, if_false] at h
      cases hcm : dictGet st.client_registry "agent_map" with
      | none =>
        simp only [hcm] at h
        rcases hcr : cascadeRemove
            ((List.filter (fun p => p.2 == agent_id) []).map Prod.fst)
            st.client_registry with crp | cr2
        · rw [hcr] at h; simp at h
        · rw [hcr] at h
          simp only [Prod.mk.injEq] at h
          obtain ⟨-, hst2, -, -⟩ := h
          subst hst2
          refine ⟨?_, ?_, ?_⟩
          · simp [dictMem, dictGet_pop_self]
          · simp only [statusMapOf, hget]
            rfl
          · rw [List.all_eq_true]
            intro p hp
            obtain ⟨c, a⟩ := p
            have hcl := cascadeRemove_clears agent_id _ _ _ hcr
              (by
                intro c1 a1 hmem1 heq1
                rw [amapEntries, hcm] at hmem1
                exact absurd hmem1 (List.not_mem_nil (c1, a1)))
              c a hp
            simpa [bne] using hcl
      | some cv =>
        cases cv with
        | api u =>
          simp only [hcm] at h
          simp at h
        | agentMap am =>
          simp only [hcm] at h
          rcases hcr : cascadeRemove
              ((List.filter (fun p => p.2 == agent_id) am).map Prod.fst)
              st.client_registry with crp | cr2
          · rw [hcr] at h; simp at h
          · rw [hcr] at h
            simp only [Prod.mk.injEq] at h
            obtain ⟨-, hst2, -, -⟩ := h
            subst hst2
            refine ⟨?_, ?_, ?_⟩
            · simp [dictMem, dictGet_pop_self]
            · simp only [statusMapOf, hget]
              rfl
            · rw [List.all_eq_true]
              intro p hp
              obtain ⟨c, a⟩ := p
              have hcl := cascadeRemove_clears agent_id _ _ _ hcr
                (by
                  intro c1 a1 hmem1 heq1
                  rw [amapEntries, hcm] at hmem1
                  refine List.mem_map.mpr ⟨(c1, a1), List.mem_filter.mpr ⟨hmem1, ?_⟩, rfl⟩
                  simp [heq1])
                c a hp
              simpa [bne] using hcl
    | some v =>
      cases v with
      | url u =>
        simp only [hget, dictMem, Option.isSome_some, if_true] at h
        simp at h
      | statusMap m1 =>
        simp only [hget, dictMem, Option.isSome_some, if_true] at h
        cases hcm : dictGet st.client_registry "agent_map" with
        | none =>
          simp only [hcm] at h
          rcases hcr : cascadeRemove
              ((List.filter (fun p => p.2 == agent_id) []).map Prod.fst)
              st.client_registry with crp | cr2
          · rw [hcr] at h; simp at h
          · rw [hcr] at h
            simp only [Prod.mk.injEq] at h
            obtain ⟨-, hst2, -, -⟩ := h
            subst hst2
            refine ⟨?_, ?_, ?_⟩
            · simp only [dictMem]
              rw [dictGet_set_ne _ _ _ _ hne, dictGet_pop_self]
              rfl
            · simp only [statusMapOf, dictGet_set_self]
              exact dictGet_pop_self m1 agent_id
            · rw [List.all_eq_true]
              intro p hp
              obtain ⟨c, a⟩ := p
              have hcl := cascadeRemove_clears agent_id _ _ _ hcr
                (by
                  intro c1 a1 hmem1 heq1
                  rw [amapEntries, hcm] at hmem1
                  exact absurd hmem1 (List.not_mem_nil (c1, a1)))
                c a hp
              simpa [bne] using hcl
        | some cv =>
          cases cv with
          | api u =>
            simp only [hcm] at h
            simp at h
          | agentMap am =>
            simp only [hcm] at h
            rcases hcr : cascadeRemove
                ((List.filter (fun p => p.2 == agent_id) am).map Prod.fst)
                st.client_registry with crp | cr2
            · rw [hcr] at h; simp at h
            · rw [hcr] at h
              simp only [Prod.mk.injEq] at h
              obtain ⟨-, hst2, -, -⟩ := h
              subst hst2
              refine ⟨?_, ?_, ?_⟩
              · simp only [dictMem]
                rw [dictGet_set_ne _ _ _ _ hne, dictGet_pop_self]
                rfl
              · simp only [statusMapOf, dictGet_set_self]
                exact dictGet_pop_self m1 agent_id
              · rw [List.all_eq_true]
                intro p hp
                obtain ⟨c, a⟩ := p
                have hcl := cascadeRemove_clears agent_id _ _ _ hcr
                  (by
                    intro c1 a1 hmem1 heq1
                    rw [amapEntries, hcm] at hmem1
                    refine List.mem_map.mpr
                      ⟨(c1, a1), List.mem_filter.mpr ⟨hmem1, ?_⟩, rfl⟩
                    simp [heq1])
                  c a hp
                simpa [bne] using hcl

/-- Claim C3 witness: deleting `A1` on `exStDel` succeeds; afterwards `A1`
is absent from the cache and no alias maps to it. -/
theorem c3_delete_cascades_witness :
    dictMem exDel.2.1.registry "A1" = false ∧
    dictGet (statusMapOf exDel.2.1) "A1" = none ∧
    (amapOf exDel.2.1).all (fun p => p.2 != "A1") = true :=
  c3_delete_cascades true exStDel exAStore exCStore "A1" _ _ _ _ rfl

/-- Claim C5: `update_status` fails with NotFound when the agent_id is not
in the directory; otherwise it applies a partial merge — a field absent
from the request leaves the stored field unchanged, a present `alive`
overwrites it, and `last_update` is always refreshed. -/
theorem c5_update_partial_merge (um : Bool) (st : State) (astore : AStore)
    (aid : String) (d : UpdateReq) (now : String) (m : List (String × StatusObj))
    (hs : dictGet st.registry "agent_status" = some (RegVal.statusMap m)) :
    (dictMem st.registry aid = false →
      (update_agent_status um st astore aid d now).1 = Resp.notFound) ∧
    (dictMem st.registry aid = true → aid ≠ "agent_status" →
      (statusAt (update_agent_status um st astore aid d now).2.1 aid).last_update
          = some now ∧
      (∀ b, d.alive = some b →
        (statusAt (update_agent_status um st astore aid d now).2.1 aid).alive
          = some b) ∧
      (d.alive = none →
        (statusAt (update_agent_status um st astore aid d now).2.1 aid).alive
          = (statusAt st aid).alive) ∧
      (d.assigned_to = none →
        (statusAt (update_agent_status um st astore aid d now).2.1 aid).assigned_to
          = (statusAt st aid).assigned_to) ∧
      (d.capabilities = none →
        (statusAt (update_agent_status um st astore aid d now).2.1 aid).capabilities
          = (statusAt st aid).capabilities) ∧
      (d.tags = none →
        (statusAt (update_agent_status um st astore aid d now).2.1 aid).tags
          = (statusAt st aid).tags) ∧
      (d.description = none →
        (statusAt (update_agent_status um st astore aid d now).2.1 aid).description
          = (statusAt st aid).description)) := by
  constructor
  · intro hnm
    unfold update_agent_status
    rw [if_pos (by simp [hnm])]
  · intro hmem hne
    obtain ⟨hst2, -, -⟩ := update_success um st astore aid d now m hs hmem hne
    rw [hst2, statusAt_set st aid m (mergeStatus ((dictGet m aid).getD {}) d now)]
    have ho : (dictGet m aid).getD {} = statusAt st aid := by
      unfold statusAt statusMapOf
      rw [hs]
    rw [ho]
    refine ⟨mergeStatus_last_update _ _ _, ?_, ?_, ?_, ?_, ?_, ?_⟩
    · intro b hb
      rw [mergeStatus_alive, hb]
    · intro hb
      rw [mergeStatus_alive, hb]
    · intro hb
      rw [mergeStatus_assigned, hb]
    · intro hb
      rw [mergeStatus_caps, hb]
    · intro hb
      rw [mergeStatus_tags, hb]
    · intro hb
      rw [mergeStatus_desc, hb]

/-- Claim C5 witness: on `exStCaps`, `update_status("A1", {alive: true})`
refreshes `last_update`, sets `alive=true`, and leaves `capabilities`,
`tags` and `description` at their prior values. -/
theorem c5_update_partial_merge_witness :
    (statusAt (update_agent_status true exStCaps [] "A1"
        { alive := some true } "t9").2.1 "A1").last_update = some "t9" ∧
    (statusAt (update_agent_status true exStCaps [] "A1"
        { alive := some true } "t9").2.1 "A1").alive = some true ∧
    (statusAt (update_agent_status true exStCaps [] "A1"
        { alive := some true } "t9").2.1 "A1").capabilities
      = (statusAt exStCaps "A1").capabilities ∧
    (statusAt (update_agent_status true exStCaps [] "A1"
        { alive := some true } "t9").2.1 "A1").tags
      = (statusAt exStCaps "A1").tags ∧
    (statusAt (update_agent_status true exStCaps [] "A1"
        { alive := some true } "t9").2.1 "A1").description
      = (statusAt exStCaps "A1").description := by
  have h := (c5_update_partial_merge true exStCaps [] "A1"
    { alive := some true } "t9" _ rfl).2 (by decide) (by decide)
  exact ⟨h.1, h.2.1 true rfl, h.2.2.2.2.1 rfl, h.2.2.2.2.2.1 rfl,
    h.2.2.2.2.2.2 rfl⟩

/-- Claim C6 (amended): `register` fails with InvalidInput exactly when the
body or the `agent_id` or `agent_url` key is missing — a present-but-empty
string is accepted; on success it stores the record with `alive=false`,
`assigned_to=null`, the request `api_url`/`description`, and a refreshed
`last_update`. -/
theorem c6_register_validation (um : Bool) (st : State) (astore : AStore)
    (d : RegisterReq) (now : String) :
    ((register um st astore none now).1 = Resp.badRequest) ∧
    ((d.agent_id = none ∨ d.agent_url = none) →
      (register um st astore (some d) now).1 = Resp.badRequest) ∧
    (∀ aid aurl, d.agent_id = some aid → d.agent_url = some aurl →
      (register um st astore (some d) now).1 ≠ Resp.badRequest) ∧
    (∀ aid aurl (m : List (String × StatusObj)),
      d.agent_id = some aid → d.agent_url = some aurl →
      aid ≠ "agent_status" →
      dictGet st.registry "agent_status" = some (RegVal.statusMap m) →
      (register um st astore (some d) now).1 =
        Resp.ok [("status", J.s "success"),
          ("message", J.s ("Agent " ++ aid ++ " registered"))] ∧
      dictGet (register um st astore (some d) now).2.1.registry aid =
        some (RegVal.url aurl) ∧
      statusAt (register um st astore (some d) now).2.1 aid =
        StatusObj.mk (some false) (some none) (some d.api_url)
          (some (d.description.getD "")) (some now) none none) := by
  refine ⟨rfl, ?_, ?_, ?_⟩
  · intro h
    unfold register
    rcases hA : d.agent_id with _ | aid
    · rcases hU : d.agent_url with _ | aurl <;> simp [hA, hU]
    · rcases hU : d.agent_url with _ | aurl
      · simp [hA, hU]
      · exfalso
        rcases h with h1 | h1
        · rw [hA] at h1; cases h1
        · rw [hU] at h1; cases h1
  · intro aid aurl hid hurl hbad
    simp only [register, hid, hurl] at hbad
    split at hbad <;> simp at hbad
  · intro aid aurl m hid hurl hne hs
    rw [register_success um st astore d aid aurl now m hid hurl hne hs]
    refine ⟨rfl, ?_, ?_⟩
    · show dictGet (dictSet (dictSet st.registry aid (RegVal.url aurl))
        "agent_status" (RegVal.statusMap (dictSet m aid (newStatusOf d now)))) aid
        = some (RegVal.url aurl)
      rw [dictGet_set_ne _ _ _ _ hne, dictGet_set_self]
    · exact statusAt_set
        (State.mk (dictSet st.registry aid (RegVal.url aurl)) st.client_registry)
        aid m (newStatusOf d now)

/-- Claim C6 witness: a well-formed registration on the empty cache is not
rejected and stores `alive=false`, `assigned_to=null`, `last_update="t1"`. -/
theorem c6_register_validation_witness :
    (register true exSt0 []
      (some { agent_id := some "A1", agent_url := some "u1" }) "t1").1 =
      Resp.ok [("status", J.s "success"),
        ("message", J.s "Agent A1 registered")] ∧
    statusAt (register true exSt0 []
      (some { agent_id := some "A1", agent_url := some "u1" }) "t1").2.1 "A1" =
      StatusObj.mk (some false) (some none) (some none) (some "") (some "t1")
        none none := by
  have h := (c6_register_validation true exSt0 []
    { agent_id := some "A1", agent_url := some "u1" } "t1").2.2.2
    "A1" "u1" [] rfl rfl (by decide) rfl
  exact ⟨h.1, h.2.2⟩

/-- Claim C7 (amended): re-registering an existing id overwrites
`agent_url` and replaces the whole status object — `alive=false`,
`assigned_to=null`, request `api_url`/`description`, fresh `last_update` —
discarding the prior `capabilities` and `tags` (their keys are gone from
the stored record, so views show empty defaults); other agents' records
are untouched. -/
theorem c7_reregister_replaces_status (um : Bool) (st : State) (astore : AStore)
    (d : RegisterReq) (aid aurl now : String) (m : List (String × StatusObj))
    (hid : d.agent_id = some aid) (hurl : d.agent_url = some aurl)
    (hne : aid ≠ "agent_status")
    (hs : dictGet st.registry "agent_status" = some (RegVal.statusMap m))
    (hmem : dictMem st.registry aid = true) :
    dictGet (register um st astore (some d) now).2.1.registry aid =
      some (RegVal.url aurl) ∧
    statusAt (register um st astore (some d) now).2.1 aid =
      StatusObj.mk (some false) (some none) (some d.api_url)
        (some (d.description.getD "")) (some now) none none ∧
    (statusAt (register um st astore (some d) now).2.1 aid).capabilities = none ∧
    (statusAt (register um st astore (some d) now).2.1 aid).tags = none ∧
    (∀ k, k ≠ aid → statusAt (register um st astore (some d) now).2.1 k =
      statusAt st k) := by
  rw [register_success um st astore d aid aurl now m hid hurl hne hs]
  have hset : statusAt
      (State.mk (dictSet (dictSet st.registry aid (RegVal.url aurl)) "agent_status"
        (RegVal.statusMap (dictSet m aid (newStatusOf d now)))) st.client_registry)
      aid = newStatusOf d now :=
    statusAt_set (State.mk (dictSet st.registry aid (RegVal.url aurl))
      st.client_registry) aid m (newStatusOf d now)
  refine ⟨?_, ?_, ?_, ?_, ?_⟩
  · show dictGet (dictSet (dictSet st.registry aid (RegVal.url aurl))
      "agent_status" (RegVal.statusMap (dictSet m aid (newStatusOf d now)))) aid
      = some (RegVal.url aurl)
    rw [dictGet_set_ne _ _ _ _ hne, dictGet_set_self]
  · exact hset
  · rw [hset]; rfl
  · rw [hset]; rfl
  · intro k hk
    have h2 : dictGet (dictSet st.registry aid (RegVal.url aurl)) "agent_status" =
        some (RegVal.statusMap m) := by
      rw [dictGet_set_ne _ _ _ _ (fun hh => hne hh.symm)]
      exact hs
    have h3 := statusAt_set_ne
      (State.mk (dictSet st.registry aid (RegVal.url aurl)) st.client_registry)
      aid k m (newStatusOf d now) h2 hk
    rw [h3]
    unfold statusAt statusMapOf
    rw [h2, hs]

/-- Claim C7 witness: re-registering `A1` on `exStCaps` updates the url and
resets the status record; the `exStCaps` capabilities and tags are gone,
while any other key reads as before. -/
theorem c7_reregister_replaces_status_witness :
    dictGet exReReg.2.1.registry "A1" = some (RegVal.url "U2") ∧
    statusAt exReReg.2.1 "A1" =
      StatusObj.mk (some false) (some none) (some none) (some "") (some "t2")
        none none ∧
    (statusAt exReReg.2.1 "A1").capabilities = none ∧
    (statusAt exReReg.2.1 "A1").tags = none ∧
    statusAt exReReg.2.1 "B9" = statusAt exStCaps "B9" := by
  have h := c7_reregister_replaces_status true exStCaps []
    { agent_id := some "A1", agent_url := some "U2" } "A1" "U2" "t2" _
    rfl rfl (by decide) rfl (by decide)
  exact ⟨h.1, h.2.1, h.2.2.1, h.2.2.2.1, h.2.2.2.2 "B9" (by decide)⟩

/-- Claim C2 (amended): for names other than the internal sentinel
`"agent_map"`, lookup resolves in order — (1) a present agent_id (other
than the sentinel `"agent_status"`) returns that agent's own record;
(2) otherwise a registered client_name whose alias resolves to a present
agent returns the mapped agent's id and url with the alias's own api_url
substituted; (3) otherwise, a name absent from both namespaces yields
NotFound.  (A dangling alias, or the `"agent_map"` key itself, faults
instead — see the counterexample.) -/
theorem c2_lookup_resolution (st : State) (m : List (String × StatusObj))
    (am : List (String × String))
    (hs : dictGet st.registry "agent_status" = some (RegVal.statusMap m))
    (ham : dictGet st.client_registry "agent_map" = some (CliVal.agentMap am))
    (name : String) :
    (∀ v, dictGet st.registry name = some v → name ≠ "agent_status" →
      lookup st name = Resp.ok [("agent_id", J.s name),
        ("agent_url", regvalJ v),
        ("api_url", jOptStr (statusAt st name).api_url.join),
        ("description", J.s ((statusAt st name).description.getD ""))]) ∧
    ((dictGet st.registry name = none ∨ name = "agent_status") →
      ∀ capi aid v, dictGet st.client_registry name = some capi →
        dictGet am name = some aid → dictGet st.registry aid = some v →
        lookup st name = Resp.ok [("agent_id", J.s aid),
          ("agent_url", regvalJ v),
          ("api_url", clivalJ capi),
          ("description", J.s ((statusAt st aid).description.getD ""))]) ∧
    ((dictGet st.registry name = none ∨ name = "agent_status") →
      dictGet st.client_registry name = none →
      lookup st name = Resp.notFound) := by
  have hoSt : ∀ a, statusAt st a = (dictGet m a).getD {} := by
    intro a
    unfold statusAt statusMapOf
    rw [hs]
  refine ⟨?_, ?_, ?_⟩
  · intro v hv hne
    have hg : (dictMem st.registry name && name != "agent_status") = true := by
      simp [dictMem, hv, bne, hne]
    unfold lookup
    rw [if_pos hg]
    simp only [hv, hs, hoSt]
  · intro hno capi aid v hcapi ham2 hv
    have hg : ¬ (dictMem st.registry name && name != "agent_status") = true := by
      rcases hno with h1 | h1
      · simp [dictMem, h1]
      · simp [h1]
    have hmc : dictMem st.client_registry name = true := by
      rw [dictMem, hcapi]; rfl
    unfold lookup
    rw [if_neg hg, if_pos hmc]
    simp only [ham, ham2, hv, hcapi, hs, hoSt]
  · intro hno hnc
    have hg : ¬ (dictMem st.registry name && name != "agent_status") = true := by
      rcases hno with h1 | h1
      · simp [dictMem, h1]
      · simp [h1]
    have hmc : ¬ dictMem st.client_registry name = true := by
      rw [dictMem, hnc]; simp
    unfold lookup
    rw [if_neg hg, if_neg hmc]

/-- Claim C2 witness: the specification's alias-resolution example — agent
`A1` with `agent_url="U"` and alias `{C1, A1, api_url="V"}` — yields
agent_id `A1`, `agent_url=U` and the alias's `api_url=V` on
`lookup("C1")`. -/
theorem c2_lookup_resolution_witness :
    lookup exSt "C1" = Resp.ok [("agent_id", J.s "A1"),
      ("agent_url", regvalJ (RegVal.url "U")),
      ("api_url", clivalJ (CliVal.api "V")),
      ("description", J.s ((statusAt exSt "A1").description.getD ""))] :=
  (c2_lookup_resolution exSt
    [("A1", { api_url := some (some "W"), description := some "d" })]
    [("C1", "A1")] rfl rfl "C1").2.1 (Or.inl rfl)
    (CliVal.api "V") "A1" (RegVal.url "U") rfl rfl rfl

/-- Claim C10: a successful `lookup` returns exactly the four fields
`agent_id`, `agent_url`, `api_url`, `description` (never `alive`,
`assigned_to`, `last_update`, `capabilities` or `tags`), while a successful
`get` returns the full nine-field view. -/
theorem c10_lookup_view_fields (st : State) :
    (∀ name p, lookup st name = Resp.ok p →
      p.map Prod.fst = ["agent_id", "agent_url", "api_url", "description"]) ∧
    (∀ aid p, get_agent st aid = Resp.ok p →
      p.map Prod.fst = ["agent_id", "agent_url", "api_url", "alive",
        "assigned_to", "last_update", "capabilities", "tags",
        "description"]) := by
  constructor
  · intro name p h
    unfold lookup at h
    repeat' split at h
    all_goals cases h
    all_goals rfl
  · intro aid p h
    unfold get_agent at h
    split at h
    · cases h
    · cases hb : build_agent_payload st aid with
      | none => rw [hb] at h; cases h
      | some p2 =>
        rw [hb] at h
        cases h
        unfold build_agent_payload at hb
        split at hb
        · cases hb
        · cases hb
          rfl

/-- Claim C10 witness: the alias lookup of `C1` on `exSt` returns a
four-field body whose keys are exactly the claimed ones. -/
theorem c10_lookup_view_fields_witness :
    lookup exSt "C1" = Resp.ok [("agent_id", J.s "A1"), ("agent_url", J.s "U"),
      ("api_url", J.s "V"), ("description", J.s "d")] ∧
    ([("agent_id", J.s "A1"), ("agent_url", J.s "U"), ("api_url", J.s "V"),
      ("description", J.s "d")] : Payload).map Prod.fst =
      ["agent_id", "agent_url", "api_url", "description"] :=
  ⟨by decide, (c10_lookup_view_fields exSt).1 "C1" _ (by decide)⟩

/-- Claim C1 (amended): on a well-formed cache (status sub-map and alias
map intact), `get`, `search`, `stats`, `delete` and `update_status` always
return typed results; `register` returns a typed result except on the
reserved name `"agent_status"` (where it raises TypeError); and `lookup`
returns a typed result whenever every alias-branch resolution it needs is
intact — a name in the client registry must resolve through the alias map
to a present agent, otherwise (dangling alias, or the `"agent_map"` key
itself) it raises KeyError, as the counterexample shows. -/
theorem c1_totality_on_wf (st : State) (hW : WF st) :
    (∀ aid, get_agent st aid ≠ Resp.fault) ∧
    (∀ q cf tf, search_agents st q cf tf ≠ none) ∧
    (stats st ≠ none) ∧
    (∀ um astore cstore aid,
      (delete_agent um st astore cstore aid).1 ≠ Resp.fault) ∧
    (∀ um astore aid d now,
      (update_agent_status um st astore aid d now).1 ≠ Resp.fault) ∧
    (∀ um astore now, (register um st astore none now).1 ≠ Resp.fault) ∧
    (∀ um astore d now, d.agent_id ≠ some "agent_status" →
      (register um st astore (some d) now).1 ≠ Resp.fault) ∧
    (∀ name, lookupSafe st name → lookup st name ≠ Resp.fault) := by
  obtain ⟨hW1, hW2⟩ := hW
  obtain ⟨m, hs⟩ := regStatusOk_elim hW1
  obtain ⟨am, ham⟩ := cliMapOk_elim hW2
  refine ⟨?_, ?_, ?_, ?_, ?_, ?_, ?_, ?_⟩
  · intro aid h
    unfold get_agent at h
    split at h
    · cases h
    · rw [build_agent_payload_eq st aid m hs] at h
      cases h
  · intro q cf tf h
    unfold search_agents at h
    rw [searchLoop_eq st m hs (pyLower (pyStrip (q.getD "")))
      (parseFilter cf) (parseFilter tf) st.registry] at h
    cases h
  · intro h
    have hmem : dictMem st.registry "agent_status" = true := by
      rw [dictMem, hs]; rfl
    simp only [stats, hmem, if_true, hs] at h
    cases h
  · intro um astore cstore aid h
    by_cases hg : (!(dictMem st.registry aid) || aid == "agent_status") = true
    · unfold delete_agent at h
      rw [if_pos hg] at h
      cases h
    · have hne : aid ≠ "agent_status" := by
        intro hh
        exact hg (by simp [hh])
      have hpop : dictGet (dictPop st.registry aid) "agent_status" =
          some (RegVal.statusMap m) := by
        rw [dictGet_pop_ne st.registry aid "agent_status" (fun hh => hne hh.symm)]
        exact hs
      obtain ⟨cr2, hcr⟩ := cascadeRemove_no_fault
        ((List.filter (fun p => p.2 == aid) am).map Prod.fst)
        st.client_registry (Or.inr ⟨am, ham⟩)
      unfold delete_agent at h
      rw [if_neg hg] at h
      simp only [hpop, dictMem, Option.isSome_some, if_true, ham, hcr] at h
      simp at h
  · intro um astore aid d now h
    by_cases hg : (!(dictMem st.registry aid) || aid == "agent_status") = true
    · unfold update_agent_status at h
      rw [if_pos hg] at h
      cases h
    · have hA : dictMem st.registry aid = true := by
        revert hg; cases dictMem st.registry aid <;> simp
      have hne : aid ≠ "agent_status" := by
        intro hh
        exact hg (by simp [hh])
      obtain ⟨-, hnf, -⟩ := update_success um st astore aid d now m hs hA hne
      exact hnf h
  · intro um astore now h
    simp [register] at h
  · intro um astore d now hres h
    rcases hA : d.agent_id with _ | aid
    · simp [register, hA] at h
    · rcases hU : d.agent_url with _ | aurl
      · simp [register, hA, hU] at h
      · have hne : aid ≠ "agent_status" := by
          intro hh
          exact hres (by rw [hA, hh])
        rw [register_success um st astore d aid aurl now m hA hU hne hs] at h
        cases h
  · intro name hsafe h
    unfold lookup at h
    by_cases hg : (dictMem st.registry name && name != "agent_status") = true
    · obtain ⟨v, hv⟩ := (dictMem_iff st.registry name).mp (by
        revert hg; cases dictMem st.registry name <;> simp)
      rw [if_pos hg] at h
      simp only [hv, hs] at h
      cases h
    · rw [if_neg hg] at h
      by_cases hmc : dictMem st.client_registry name = true
      · obtain ⟨aid, hga, hmema⟩ := hsafe hmc
        have hga2 : dictGet am name = some aid := by
          unfold amapOf amapEntries at hga
          rw [ham] at hga
          exact hga
        obtain ⟨v, hv⟩ := (dictMem_iff st.registry aid).mp hmema
        obtain ⟨capi, hcapi⟩ := (dictMem_iff st.client_registry name).mp hmc
        rw [if_pos hmc] at h
        simp only [ham, hga2, hv, hcapi, hs] at h
        cases h
      · rw [if_neg hmc] at h
        cases h

/-- Claim C1 witness: on the well-formed cache `exSt`, a read of a present
agent and the alias lookup of `C1` (whose alias map resolves to the present
agent `A1`) both return typed results. -/
theorem c1_totality_on_wf_witness :
    get_agent exSt "A1" ≠ Resp.fault ∧ lookup exSt "C1" ≠ Resp.fault :=
  ⟨(c1_totality_on_wf exSt (by decide)).1 "A1",
   (c1_totality_on_wf exSt (by decide)).2.2.2.2.2.2.2 "C1"
     (fun _ => ⟨"A1", by decide, by decide⟩)⟩

end NandaRegistry
